import Mathlib

/-!
Verification of the account-balance-calculator transaction state machine.

The development shallowly embeds the Rust sources:
* `src/common.rs`: `TransactionType`, `Transaction` (client and tx ids become `Nat`;
  the `BigDecimal` amounts become the `BigDecimal` structure below, an exact
  scaled-integer decimal mirroring the `bigdecimal` crate used by the code).
* `src/account_manager.rs`: `ClientState`, `get_tx_state_and_check_state`, and the
  five operations `deposit`, `withdrawal`, `dispute`, `resolve`, `chargeback`.
  The `HashMap<TxId, (TransactionType, BigDecimal)>` becomes an association list
  with key-unique insert and in-place value update, matching map semantics.
  Rust mutates `self` in place and returns `Result<(), Error>`; the embedding
  threads the state explicitly: each operation returns the state as it is at the
  point the Rust function returns, paired with `none` on success or `some e` for
  the error produced at the corresponding `return Err(...)` site.  The
  `unreachable!` branch of `get_tx_state_and_check_state` (a `Resolve` value
  stored in the ledger, which no code path ever stores) is modelled by the
  distinguished error `Err.unreachableResolveState`.
* `src/lib.rs` (`run_with_args` output block): the per-account output row, built
  from `BigDecimal::round(4)` and the crate's `Display` instance, both of which
  are translated digit-for-digit below.
-/

/-- Mirrors `TransactionType` from src/common.rs.  The code reuses this enum as the
lifecycle state of a ledger entry (`Deposit` = posted and currently undisputed). -/
inductive TransactionType where
  | deposit
  | withdrawal
  | dispute
  | resolve
  | chargeback
deriving DecidableEq, Repr

/-- Client identifier (`u16` in src/common.rs; the width plays no role in the claims). -/
abbrev ClientId := Nat

/-- Transaction identifier (`u32` in src/common.rs). -/
abbrev TxId := Nat

/-- Exact decimal number: the `bigdecimal::BigDecimal` representation, a signed
integer mantissa `int_val` together with a decimal `scale`, denoting
`int_val * 10 ^ (-scale)`. -/
structure BigDecimal where
  int_val : Int
  scale : Int
deriving DecidableEq, Repr

/-- Rational value denoted by a `BigDecimal`. -/
def BigDecimal.toRat (x : BigDecimal) : ℚ :=
  (x.int_val : ℚ) * (10 : ℚ) ^ (-x.scale)

/-- Mirrors `Add`/`AddAssign` of the bigdecimal crate: align both operands to the
larger scale and add the mantissas. -/
def BigDecimal.add (a b : BigDecimal) : BigDecimal :=
  if a.scale < b.scale then
    ⟨a.int_val * 10 ^ (b.scale - a.scale).toNat + b.int_val, b.scale⟩
  else if b.scale < a.scale then
    ⟨a.int_val + b.int_val * 10 ^ (a.scale - b.scale).toNat, a.scale⟩
  else
    ⟨a.int_val + b.int_val, a.scale⟩

/-- Mirrors `Sub`/`SubAssign` of the bigdecimal crate: align both operands to the
larger scale and subtract the mantissas. -/
def BigDecimal.sub (a b : BigDecimal) : BigDecimal :=
  if a.scale < b.scale then
    ⟨a.int_val * 10 ^ (b.scale - a.scale).toNat - b.int_val, b.scale⟩
  else if b.scale < a.scale then
    ⟨a.int_val - b.int_val * 10 ^ (a.scale - b.scale).toNat, a.scale⟩
  else
    ⟨a.int_val - b.int_val, a.scale⟩

/-- Value-level order, as the crate's `Ord`: the sign of the aligned difference. -/
def BigDecimal.lt (a b : BigDecimal) : Prop := (a.sub b).int_val < 0

/-- Value-level order, as the crate's `Ord`: the sign of the aligned difference. -/
def BigDecimal.le (a b : BigDecimal) : Prop := (a.sub b).int_val ≤ 0

/-- Value-level equality, as the crate's `PartialEq` (`2.0 == 2.00`). -/
def BigDecimal.veq (a b : BigDecimal) : Prop := (a.sub b).int_val = 0

instance (a b : BigDecimal) : Decidable (a.lt b) :=
  inferInstanceAs (Decidable ((a.sub b).int_val < 0))

instance (a b : BigDecimal) : Decidable (a.le b) :=
  inferInstanceAs (Decidable ((a.sub b).int_val ≤ 0))

instance (a b : BigDecimal) : Decidable (a.veq b) :=
  inferInstanceAs (Decidable ((a.sub b).int_val = 0))

/-- Mirrors `BigDecimal::with_scale`: rescale the representation, truncating the
mantissa toward zero (BigInt division) when the scale shrinks. -/
def BigDecimal.with_scale (self : BigDecimal) (new_scale : Int) : BigDecimal :=
  if self.int_val = 0 then ⟨0, new_scale⟩
  else if self.scale < new_scale then
    ⟨self.int_val * 10 ^ (new_scale - self.scale).toNat, new_scale⟩
  else if new_scale < self.scale then
    ⟨(self.int_val).tdiv (10 ^ (self.scale - new_scale).toNat), new_scale⟩
  else self

/-- Mirrors `BigDecimal::round` (bigdecimal 0.3): if the stored scale does not
exceed `round_digits` the value is returned unchanged (no zero padding);
otherwise round half-away-from-zero at the requested digit. -/
def BigDecimal.round (self : BigDecimal) (round_digits : Int) : BigDecimal :=
  let need_to_round_digits := self.scale - round_digits
  if 0 ≤ round_digits ∧ need_to_round_digits ≤ 0 then self
  else
    let number := self.int_val.natAbs / 10 ^ (need_to_round_digits - 1).toNat
    let digit := number % 10
    if digit ≤ 4 then self.with_scale round_digits
    else if self.int_val < 0 then (self.with_scale round_digits).sub ⟨1, round_digits⟩
    else (self.with_scale round_digits).add ⟨1, round_digits⟩

/-- Decimal digit characters of a natural number, most significant first
(fuel-based so it reduces in the kernel; mirrors BigInt's `to_str_radix(10)`). -/
def natCharsAux : Nat → Nat → List Char → List Char
  | 0, _, acc => acc
  | fuel + 1, n, acc =>
      if n = 0 then acc
      else natCharsAux fuel (n / 10) (Char.ofNat (48 + n % 10) :: acc)

/-- Decimal digit characters of a natural number, most significant first. -/
def natToChars (n : Nat) : List Char :=
  if n = 0 then ['0'] else natCharsAux (n + 1) n []

/-- Mirrors the bigdecimal crate's `Display` implementation: place the decimal
point according to `scale`; a value whose scale is not positive is printed with
no decimal point at all. -/
def bigDecimalChars (x : BigDecimal) : List Char :=
  let abs_int := natToChars x.int_val.natAbs
  let exponent := x.scale
  let sign : List Char := if x.int_val < 0 then ['-'] else []
  if exponent ≤ 0 then
    sign ++ abs_int ++ List.replicate (-exponent).toNat '0'
  else
    let location : Int := (abs_int.length : Int) - exponent
    if 0 < location then
      sign ++ abs_int.take location.toNat ++ '.' :: abs_int.drop location.toNat
    else
      sign ++ '0' :: '.' :: (List.replicate (-location).toNat '0' ++ abs_int)

/-- Rendering of a `BigDecimal` as the program writes it. -/
def BigDecimal.render (x : BigDecimal) : String := String.mk (bigDecimalChars x)

/-- Mirrors `Transaction` from src/common.rs. -/
structure Transaction where
  transaction_type : TransactionType
  client : ClientId
  tx : TxId
  amount : Option BigDecimal
deriving DecidableEq, Repr

/-- The distinct recoverable-error sites of src/account_manager.rs (the code
produces them all as `ErrorKind::Other` with distinct messages). -/
inductive Err where
  | transactionAlreadyProcessed
  | amountMustBeProvided
  | accountLocked
  | notEnoughAvailableFunds
  | notEnoughHeldFunds
  | txDoesNotExist
  | cannotDisputeWithdrawal
  | alreadyBeingDisputed
  | alreadyChargebacked
  | notUnderDispute
  | unreachableResolveState
deriving DecidableEq, Repr

/-- Ledger lookup: `HashMap::get` on `tx_for_transaction_state`. -/
def lookupTx : List (TxId × TransactionType × BigDecimal) → TxId →
    Option (TransactionType × BigDecimal)
  | [], _ => none
  | (k, v) :: rest, tx => if k = tx then some v else lookupTx rest tx

/-- Ledger membership test: `HashMap::contains_key`. -/
def containsTx (m : List (TxId × TransactionType × BigDecimal)) (tx : TxId) : Bool :=
  (lookupTx m tx).isSome

/-- Ledger insert: `HashMap::insert` (replaces an existing binding; in the code it
is only ever called on a key checked to be absent). -/
def insertTx : List (TxId × TransactionType × BigDecimal) → TxId →
    TransactionType × BigDecimal → List (TxId × TransactionType × BigDecimal)
  | [], tx, v => [(tx, v)]
  | (k, w) :: rest, tx, v =>
      if k = tx then (tx, v) :: rest else (k, w) :: insertTx rest tx v

/-- In-place update of the lifecycle state of the entry under a key, keeping its
amount: the `*tx_state = ...` writes through the mutable reference returned by
`get_tx_state_and_check_state`. -/
def setTxState : List (TxId × TransactionType × BigDecimal) → TxId →
    TransactionType → List (TxId × TransactionType × BigDecimal)
  | [], _, _ => []
  | (k, (st, amt)) :: rest, tx, new =>
      if k = tx then (k, (new, amt)) :: rest
      else (k, (st, amt)) :: setTxState rest tx new

/-- Mirrors `ClientState` from src/account_manager.rs. -/
structure ClientState where
  client : ClientId
  available : BigDecimal
  held : BigDecimal
  locked : Bool
  tx_for_transaction_state : List (TxId × TransactionType × BigDecimal)
deriving DecidableEq, Repr

/-- Mirrors `get_tx_state_and_check_state` from src/account_manager.rs: look up
the transaction's ledger entry and check it is in the allowed lifecycle state. -/
def get_tx_state_and_check_state
    (tx_for_transaction_state : List (TxId × TransactionType × BigDecimal))
    (transaction : Transaction) (allowed_tx_state : TransactionType) :
    Except Err (TransactionType × BigDecimal) :=
  match lookupTx tx_for_transaction_state transaction.tx with
  | none => Except.error Err.txDoesNotExist
  | some (tx_state, amount) =>
    if tx_state = allowed_tx_state then Except.ok (tx_state, amount)
    else
      match tx_state with
      | TransactionType.withdrawal => Except.error Err.cannotDisputeWithdrawal
      | TransactionType.dispute => Except.error Err.alreadyBeingDisputed
      | TransactionType.chargeback => Except.error Err.alreadyChargebacked
      | TransactionType.resolve => Except.error Err.unreachableResolveState
      | TransactionType.deposit => Except.error Err.notUnderDispute

/-- Mirrors `ClientState::deposit`. -/
def ClientState.deposit (self : ClientState) (transaction : Transaction) :
    ClientState × Option Err :=
  if containsTx self.tx_for_transaction_state transaction.tx then
    (self, some Err.transactionAlreadyProcessed)
  else
    match transaction.amount with
    | none => (self, some Err.amountMustBeProvided)
    | some amount =>
      ({ self with
          available := self.available.add amount,
          tx_for_transaction_state :=
            insertTx self.tx_for_transaction_state transaction.tx
              (TransactionType.deposit, amount) }, none)

/-- Mirrors `ClientState::withdrawal`. -/
def ClientState.withdrawal (self : ClientState) (transaction : Transaction) :
    ClientState × Option Err :=
  if self.locked then (self, some Err.accountLocked)
  else if containsTx self.tx_for_transaction_state transaction.tx then
    (self, some Err.transactionAlreadyProcessed)
  else
    match transaction.amount with
    | none => (self, some Err.amountMustBeProvided)
    | some amount =>
      if self.available.le amount then (self, some Err.notEnoughAvailableFunds)
      else
        ({ self with
            available := self.available.sub amount,
            tx_for_transaction_state :=
              insertTx self.tx_for_transaction_state transaction.tx
                (TransactionType.withdrawal, amount) }, none)

/-- Mirrors `ClientState::dispute`. -/
def ClientState.dispute (self : ClientState) (transaction : Transaction) :
    ClientState × Option Err :=
  match get_tx_state_and_check_state self.tx_for_transaction_state transaction
      TransactionType.deposit with
  | Except.error e => (self, some e)
  | Except.ok (_, amount) =>
    if self.available.lt amount then (self, some Err.notEnoughAvailableFunds)
    else
      ({ self with
          tx_for_transaction_state :=
            setTxState self.tx_for_transaction_state transaction.tx
              TransactionType.dispute,
          available := self.available.sub amount,
          held := self.held.add amount }, none)

/-- Mirrors `ClientState::resolve`. -/
def ClientState.resolve (self : ClientState) (transaction : Transaction) :
    ClientState × Option Err :=
  match get_tx_state_and_check_state self.tx_for_transaction_state transaction
      TransactionType.dispute with
  | Except.error e => (self, some e)
  | Except.ok (_, amount) =>
    if self.held.lt amount then (self, some Err.notEnoughHeldFunds)
    else
      ({ self with
          tx_for_transaction_state :=
            setTxState self.tx_for_transaction_state transaction.tx
              TransactionType.deposit,
          held := self.held.sub amount,
          available := self.available.add amount }, none)

/-- Mirrors `ClientState::chargeback`. -/
def ClientState.chargeback (self : ClientState) (transaction : Transaction) :
    ClientState × Option Err :=
  match get_tx_state_and_check_state self.tx_for_transaction_state transaction
      TransactionType.dispute with
  | Except.error e => (self, some e)
  | Except.ok (_, amount) =>
    if self.held.lt amount then (self, some Err.notEnoughHeldFunds)
    else
      ({ self with
          tx_for_transaction_state :=
            setTxState self.tx_for_transaction_state transaction.tx
              TransactionType.chargeback,
          held := self.held.sub amount,
          locked := true }, none)

/-- The per-transaction dispatch of the worker loop in
`process_account_transactions` (src/account_manager.rs). -/
def applyTransaction (state : ClientState) (transaction : Transaction) :
    ClientState × Option Err :=
  match transaction.transaction_type with
  | TransactionType.deposit => state.deposit transaction
  | TransactionType.withdrawal => state.withdrawal transaction
  | TransactionType.dispute => state.dispute transaction
  | TransactionType.resolve => state.resolve transaction
  | TransactionType.chargeback => state.chargeback transaction

/-- The state freshly created for a client on its first transaction:
`ClientState { client, ..Default::default() }`. -/
def initialState (c : ClientId) : ClientState :=
  ⟨c, ⟨0, 0⟩, ⟨0, 0⟩, false, []⟩

/-- The worker loop folded over a list of transactions for one account (errors
are reported to stderr and dropped; processing continues). -/
def applyAll (s : ClientState) : List Transaction → ClientState
  | [] => s
  | t :: ts => applyAll (applyTransaction s t).1 ts

/-- The output row `run_with_args` (src/lib.rs) writes for one account:
client, available.round(4), held.round(4), (available + held).round(4), locked. -/
def formatAccountRow (account_state : ClientState) : String :=
  String.mk (natToChars account_state.client) ++ "," ++
  (account_state.available.round 4).render ++ "," ++
  (account_state.held.round 4).render ++ "," ++
  ((account_state.available.add account_state.held).round 4).render ++ "," ++
  (if account_state.locked then "true" else "false")

example :
    applyAll (initialState 1)
      [⟨TransactionType.deposit, 1, 1, some ⟨20, 1⟩⟩,
       ⟨TransactionType.withdrawal, 1, 2, some ⟨10, 1⟩⟩] =
    ⟨1, ⟨10, 1⟩, ⟨0, 0⟩, false,
      [(1, TransactionType.deposit, ⟨20, 1⟩), (2, TransactionType.withdrawal, ⟨10, 1⟩)]⟩ := by
  decide

example :
    formatAccountRow (applyAll (initialState 1)
      [⟨TransactionType.deposit, 1, 1, some ⟨10, 1⟩⟩]) = "1,1.0,0,1.0,false" := by
  decide

/-! ### Value semantics of the decimal representation -/

theorem tenPow_toNat_mul (s1 s2 : Int) (h : s1 ≤ s2) :
    ((10 : ℚ) ^ (s2 - s1).toNat) * (10 : ℚ) ^ (-s2) = (10 : ℚ) ^ (-s1) := by
  rw [← zpow_natCast (10 : ℚ) (s2 - s1).toNat, Int.toNat_of_nonneg (by omega),
    ← zpow_add₀ (by norm_num : (10 : ℚ) ≠ 0)]
  congr 1
  omega

theorem BigDecimal.toRat_add (a b : BigDecimal) :
    (a.add b).toRat = a.toRat + b.toRat := by
  unfold BigDecimal.add BigDecimal.toRat
  split
  · rename_i h
    have h10 := tenPow_toNat_mul a.scale b.scale (le_of_lt h)
    push_cast
    linear_combination (a.int_val : ℚ) * h10
  · split
    · rename_i h1 h
      have h10 := tenPow_toNat_mul b.scale a.scale (le_of_lt h)
      push_cast
      linear_combination (b.int_val : ℚ) * h10
    · rename_i h1 h2
      have hs : b.scale = a.scale := by omega
      rw [hs]
      push_cast
      ring

theorem BigDecimal.toRat_sub (a b : BigDecimal) :
    (a.sub b).toRat = a.toRat - b.toRat := by
  unfold BigDecimal.sub BigDecimal.toRat
  split
  · rename_i h
    have h10 := tenPow_toNat_mul a.scale b.scale (le_of_lt h)
    push_cast
    linear_combination (a.int_val : ℚ) * h10
  · split
    · rename_i h1 h
      have h10 := tenPow_toNat_mul b.scale a.scale (le_of_lt h)
      push_cast
      linear_combination (-(b.int_val : ℚ)) * h10
    · rename_i h1 h2
      have hs : b.scale = a.scale := by omega
      rw [hs]
      push_cast
      ring

theorem BigDecimal.toRat_neg_iff (x : BigDecimal) : x.toRat < 0 ↔ x.int_val < 0 := by
  unfold BigDecimal.toRat
  have hp : (0 : ℚ) < (10 : ℚ) ^ (-x.scale) := by positivity
  constructor
  · intro h
    by_contra hc
    push_neg at hc
    have : (0 : ℚ) ≤ (x.int_val : ℚ) * (10 : ℚ) ^ (-x.scale) := by
      apply mul_nonneg _ (le_of_lt hp)
      exact_mod_cast hc
    linarith
  · intro h
    apply mul_neg_of_neg_of_pos _ hp
    exact_mod_cast h

theorem BigDecimal.toRat_nonpos_iff (x : BigDecimal) : x.toRat ≤ 0 ↔ x.int_val ≤ 0 := by
  unfold BigDecimal.toRat
  have hp : (0 : ℚ) < (10 : ℚ) ^ (-x.scale) := by positivity
  constructor
  · intro h
    by_contra hc
    push_neg at hc
    have : (0 : ℚ) < (x.int_val : ℚ) * (10 : ℚ) ^ (-x.scale) := by
      apply mul_pos _ hp
      exact_mod_cast hc
    linarith
  · intro h
    apply mul_nonpos_of_nonpos_of_nonneg _ (le_of_lt hp)
    exact_mod_cast h

theorem BigDecimal.toRat_eq_zero_iff (x : BigDecimal) : x.toRat = 0 ↔ x.int_val = 0 := by
  unfold BigDecimal.toRat
  have hp : (10 : ℚ) ^ (-x.scale) ≠ 0 := by positivity
  rw [mul_eq_zero]
  constructor
  · intro h
    rcases h with h | h
    · exact_mod_cast h
    · exact absurd h hp
  · intro h
    left
    exact_mod_cast h

theorem BigDecimal.lt_iff (a b : BigDecimal) : a.lt b ↔ a.toRat < b.toRat := by
  unfold BigDecimal.lt
  rw [← BigDecimal.toRat_neg_iff, BigDecimal.toRat_sub]
  constructor <;> intro h <;> linarith

theorem BigDecimal.le_iff (a b : BigDecimal) : a.le b ↔ a.toRat ≤ b.toRat := by
  unfold BigDecimal.le
  rw [← BigDecimal.toRat_nonpos_iff, BigDecimal.toRat_sub]
  constructor <;> intro h <;> linarith

theorem BigDecimal.veq_iff (a b : BigDecimal) : a.veq b ↔ a.toRat = b.toRat := by
  unfold BigDecimal.veq
  rw [← BigDecimal.toRat_eq_zero_iff, BigDecimal.toRat_sub]
  constructor <;> intro h <;> linarith

/-! ### Ledger association-list lemmas -/

theorem lookupTx_insertTx_self (m : List (TxId × TransactionType × BigDecimal))
    (k : TxId) (v : TransactionType × BigDecimal) :
    lookupTx (insertTx m k v) k = some v := by
  induction m with
  | nil => simp [insertTx, lookupTx]
  | cons e rest ih =>
    obtain ⟨k0, w⟩ := e
    by_cases h : k0 = k <;> simp [insertTx, lookupTx, h, ih]

theorem lookupTx_insertTx_ne (m : List (TxId × TransactionType × BigDecimal))
    (j k : TxId) (v : TransactionType × BigDecimal) (h : j ≠ k) :
    lookupTx (insertTx m j v) k = lookupTx m k := by
  induction m with
  | nil => simp [insertTx, lookupTx, h]
  | cons e rest ih =>
    obtain ⟨k0, w⟩ := e
    by_cases h0 : k0 = j
    · subst h0
      simp [insertTx, lookupTx, h]
    · simp [insertTx, lookupTx, h0, ih]

theorem lookupTx_setTxState_self (m : List (TxId × TransactionType × BigDecimal))
    (k : TxId) (st0 new : TransactionType) (a : BigDecimal)
    (h : lookupTx m k = some (st0, a)) :
    lookupTx (setTxState m k new) k = some (new, a) := by
  induction m with
  | nil => simp [lookupTx] at h
  | cons e rest ih =>
    obtain ⟨k0, st1, a1⟩ := e
    by_cases h0 : k0 = k
    · subst h0
      simp [lookupTx] at h
      simp [setTxState, lookupTx, h]
    · simp [lookupTx, h0] at h
      simp [setTxState, lookupTx, h0, ih h]

theorem lookupTx_setTxState_ne (m : List (TxId × TransactionType × BigDecimal))
    (j k : TxId) (new : TransactionType) (h : j ≠ k) :
    lookupTx (setTxState m j new) k = lookupTx m k := by
  induction m with
  | nil => simp [setTxState, lookupTx]
  | cons e rest ih =>
    obtain ⟨k0, st1, a1⟩ := e
    by_cases h0 : k0 = j
    · subst h0
      simp [setTxState, lookupTx, h, Ne.symm h]
    · simp [setTxState, lookupTx, h0, ih]

theorem setTxState_setTxState (m : List (TxId × TransactionType × BigDecimal))
    (k : TxId) (st1 st2 : TransactionType) :
    setTxState (setTxState m k st1) k st2 = setTxState m k st2 := by
  induction m with
  | nil => simp [setTxState]
  | cons e rest ih =>
    obtain ⟨k0, st0, a0⟩ := e
    by_cases h0 : k0 = k <;> simp [setTxState, h0, ih]

theorem setTxState_eq_self (m : List (TxId × TransactionType × BigDecimal))
    (k : TxId) (st : TransactionType) (a : BigDecimal)
    (h : lookupTx m k = some (st, a)) : setTxState m k st = m := by
  induction m with
  | nil => simp [lookupTx] at h
  | cons e rest ih =>
    obtain ⟨k0, st0, a0⟩ := e
    by_cases h0 : k0 = k
    · subst h0
      simp [lookupTx] at h
      simp [setTxState, h.1]
    · simp [lookupTx, h0] at h
      simp [setTxState, h0, ih h]

theorem mem_insertTx (m : List (TxId × TransactionType × BigDecimal))
    (k : TxId) (v : TransactionType × BigDecimal)
    (e : TxId × TransactionType × BigDecimal) (he : e ∈ insertTx m k v) :
    e = (k, v) ∨ e ∈ m := by
  induction m with
  | nil => simpa [insertTx] using he
  | cons e0 rest ih =>
    obtain ⟨k0, w⟩ := e0
    by_cases h0 : k0 = k
    · simp [insertTx, h0] at he
      rcases he with he | he
      · left; simp [he]
      · right; simp [he]
    · simp [insertTx, h0] at he
      rcases he with he | he
      · right; simp [he]
      · rcases ih he with h | h
        · left; exact h
        · right; simp [h]

theorem mem_setTxState (m : List (TxId × TransactionType × BigDecimal))
    (k : TxId) (new : TransactionType)
    (e : TxId × TransactionType × BigDecimal) (he : e ∈ setTxState m k new) :
    ∃ e0 ∈ m, e0.2.2 = e.2.2 := by
  induction m with
  | nil => simp [setTxState] at he
  | cons e0 rest ih =>
    obtain ⟨k0, st0, a0⟩ := e0
    by_cases h0 : k0 = k
    · simp [setTxState, h0] at he
      rcases he with he | he
      · exact ⟨(k0, st0, a0), by simp, by simp [he]⟩
      · exact ⟨e, by simp [he], rfl⟩
    · simp [setTxState, h0] at he
      rcases he with he | he
      · exact ⟨(k0, st0, a0), by simp, by simp [he]⟩
      · obtain ⟨e1, he1, ha⟩ := ih he
        exact ⟨e1, by simp [he1], ha⟩

theorem lookupTx_mem (m : List (TxId × TransactionType × BigDecimal))
    (k : TxId) (v : TransactionType × BigDecimal) (h : lookupTx m k = some v) :
    (k, v) ∈ m := by
  induction m with
  | nil => simp [lookupTx] at h
  | cons e0 rest ih =>
    obtain ⟨k0, w⟩ := e0
    by_cases h0 : k0 = k
    · subst h0
      simp [lookupTx] at h
      simp [h]
    · simp [lookupTx, h0] at h
      simp [ih h]

/-! ### Error returns never mutate the state

Every `return Err(...)` in the five operations happens before the first
mutation of `self`, so an erroring operation leaves the state exactly as it
was.  One lemma per operation, then the dispatcher-level lemma. -/

theorem deposit_error_eq (s : ClientState) (t : Transaction) (e : Err)
    (h : (s.deposit t).2 = some e) : (s.deposit t).1 = s := by
  unfold ClientState.deposit at h ⊢
  by_cases hc : containsTx s.tx_for_transaction_state t.tx = true
  · simp [hc]
  · cases ha : t.amount with
    | none => simp [hc, ha]
    | some a => simp [hc, ha] at h

theorem withdrawal_error_eq (s : ClientState) (t : Transaction) (e : Err)
    (h : (s.withdrawal t).2 = some e) : (s.withdrawal t).1 = s := by
  unfold ClientState.withdrawal at h ⊢
  by_cases hl : s.locked = true
  · simp [hl]
  · by_cases hc : containsTx s.tx_for_transaction_state t.tx = true
    · simp [hl, hc]
    · cases ha : t.amount with
      | none => simp [hl, hc, ha]
      | some a =>
        by_cases hle : s.available.le a
        · simp [hl, hc, ha, hle]
        · simp [hl, hc, ha, hle] at h

theorem dispute_error_eq (s : ClientState) (t : Transaction) (e : Err)
    (h : (s.dispute t).2 = some e) : (s.dispute t).1 = s := by
  unfold ClientState.dispute at h ⊢
  cases hg : get_tx_state_and_check_state s.tx_for_transaction_state t
      TransactionType.deposit with
  | error e0 => simp [hg]
  | ok p =>
    obtain ⟨st, a⟩ := p
    by_cases hlt : s.available.lt a
    · simp [hg, hlt]
    · simp [hg, hlt] at h

theorem resolve_error_eq (s : ClientState) (t : Transaction) (e : Err)
    (h : (s.resolve t).2 = some e) : (s.resolve t).1 = s := by
  unfold ClientState.resolve at h ⊢
  cases hg : get_tx_state_and_check_state s.tx_for_transaction_state t
      TransactionType.dispute with
  | error e0 => simp [hg]
  | ok p =>
    obtain ⟨st, a⟩ := p
    by_cases hlt : s.held.lt a
    · simp [hg, hlt]
    · simp [hg, hlt] at h

theorem chargeback_error_eq (s : ClientState) (t : Transaction) (e : Err)
    (h : (s.chargeback t).2 = some e) : (s.chargeback t).1 = s := by
  unfold ClientState.chargeback at h ⊢
  cases hg : get_tx_state_and_check_state s.tx_for_transaction_state t
      TransactionType.dispute with
  | error e0 => simp [hg]
  | ok p =>
    obtain ⟨st, a⟩ := p
    by_cases hlt : s.held.lt a
    · simp [hg, hlt]
    · simp [hg, hlt] at h

theorem applyTransaction_error_eq (s : ClientState) (t : Transaction) (e : Err)
    (h : (applyTransaction s t).2 = some e) : (applyTransaction s t).1 = s := by
  cases htt : t.transaction_type <;> simp only [applyTransaction, htt] at h ⊢
  · exact deposit_error_eq s t e h
  · exact withdrawal_error_eq s t e h
  · exact dispute_error_eq s t e h
  · exact resolve_error_eq s t e h
  · exact chargeback_error_eq s t e h

/-- No code path ever stores `Resolve` as a ledger-entry lifecycle state; states
whose ledger is free of it are exactly those on which the embedding never takes
the branch that models the source's `unreachable!`. -/
def ResolveFree (s : ClientState) : Prop :=
  ∀ e ∈ s.tx_for_transaction_state, e.2.1 ≠ TransactionType.resolve

instance (s : ClientState) : Decidable (ResolveFree s) := by
  unfold ResolveFree
  exact List.decidableBAll _ _

/-- C1: Atomicity of every account operation: for every account state and every
transaction, if applying Deposit, Withdrawal, Dispute, Resolve, or Chargeback
returns an error, then the account state (available, held, locked, and the
ledger-entry map) after the call equals the state before the call; each
operation either fully succeeds or fully no-ops.  (Stated over states whose
ledger never holds the impossible Resolve lifecycle state, where the embedding
coincides with the code.) -/
theorem C1_error_atomicity (s : ClientState) (t : Transaction) (e : Err)
    (_hres : ResolveFree s) (h : (applyTransaction s t).2 = some e) :
    (applyTransaction s t).1 = s :=
  applyTransaction_error_eq s t e h

theorem C1_error_atomicity_witness :
    ResolveFree (initialState 1) ∧
    (applyTransaction (initialState 1)
      ⟨TransactionType.withdrawal, 1, 1, none⟩).2 = some Err.amountMustBeProvided ∧
    (applyTransaction (initialState 1)
      ⟨TransactionType.withdrawal, 1, 1, none⟩).1 = initialState 1 :=
  ⟨by decide, by decide,
    C1_error_atomicity (initialState 1) ⟨TransactionType.withdrawal, 1, 1, none⟩
      Err.amountMustBeProvided (by decide) (by decide)⟩

/-- C4: Withdrawal uses a strict-inequality funds check: with an amount present,
a fresh transaction id, and the account not locked, the withdrawal fails
(leaving the state unchanged) when available ≤ amount — in particular an
exact-balance withdrawal is rejected — and when available > amount it succeeds
with available decreased by exactly the amount and a ledger entry
(Withdrawal-kind, amount) inserted under the transaction id (the code records a
posted withdrawal with the Withdrawal kind tag). -/
theorem C4_withdrawal_strict (s : ClientState) (t : Transaction) (a : BigDecimal)
    (ht : t.transaction_type = TransactionType.withdrawal)
    (hamt : t.amount = some a)
    (hfresh : containsTx s.tx_for_transaction_state t.tx = false)
    (hlock : s.locked = false) :
    (s.available.le a → applyTransaction s t = (s, some Err.notEnoughAvailableFunds)) ∧
    (¬ s.available.le a →
      applyTransaction s t =
        ({ s with
            available := s.available.sub a,
            tx_for_transaction_state :=
              insertTx s.tx_for_transaction_state t.tx
                (TransactionType.withdrawal, a) }, none)) := by
  constructor <;> intro hle <;>
    simp [applyTransaction, ht, ClientState.withdrawal, hlock, hfresh, hamt, hle]

theorem C4_withdrawal_strict_witness :
    (applyAll (initialState 1) [⟨TransactionType.deposit, 1, 1, some ⟨2, 0⟩⟩]).available.le ⟨2, 0⟩ ∧
    applyTransaction (applyAll (initialState 1) [⟨TransactionType.deposit, 1, 1, some ⟨2, 0⟩⟩])
        ⟨TransactionType.withdrawal, 1, 2, some ⟨2, 0⟩⟩ =
      (applyAll (initialState 1) [⟨TransactionType.deposit, 1, 1, some ⟨2, 0⟩⟩],
        some Err.notEnoughAvailableFunds) :=
  ⟨by decide,
    (C4_withdrawal_strict
        (applyAll (initialState 1) [⟨TransactionType.deposit, 1, 1, some ⟨2, 0⟩⟩])
        ⟨TransactionType.withdrawal, 1, 2, some ⟨2, 0⟩⟩ ⟨2, 0⟩
        rfl rfl (by decide) (by decide)).1 (by decide)⟩

/-- C6: Locked-account behaviour: for every locked account, every subsequent
Withdrawal fails and leaves the state unchanged, while every subsequent Deposit
with a fresh transaction id and an amount present succeeds and increases
available by that amount. -/
theorem C6_locked_account (s : ClientState) (t : Transaction)
    (hlock : s.locked = true) :
    (t.transaction_type = TransactionType.withdrawal →
      applyTransaction s t = (s, some Err.accountLocked)) ∧
    (∀ a, t.transaction_type = TransactionType.deposit → t.amount = some a →
      containsTx s.tx_for_transaction_state t.tx = false →
      applyTransaction s t =
        ({ s with
            available := s.available.add a,
            tx_for_transaction_state :=
              insertTx s.tx_for_transaction_state t.tx
                (TransactionType.deposit, a) }, none)) := by
  constructor
  · intro ht
    simp [applyTransaction, ht, ClientState.withdrawal, hlock]
  · intro a ht hamt hfresh
    simp [applyTransaction, ht, ClientState.deposit, hfresh, hamt]

/-- A concrete locked account: deposit 1, dispute it, charge it back. -/
def lockedExampleState : ClientState :=
  applyAll (initialState 1)
    [⟨TransactionType.deposit, 1, 1, some ⟨1, 0⟩⟩,
     ⟨TransactionType.dispute, 1, 1, none⟩,
     ⟨TransactionType.chargeback, 1, 1, none⟩]

theorem C6_locked_account_witness :
    lockedExampleState.locked = true ∧
    applyTransaction lockedExampleState
        ⟨TransactionType.withdrawal, 1, 2, some ⟨1, 0⟩⟩ =
      (lockedExampleState, some Err.accountLocked) :=
  ⟨by decide,
    (C6_locked_account lockedExampleState
        ⟨TransactionType.withdrawal, 1, 2, some ⟨1, 0⟩⟩ (by decide)).1 rfl⟩

/-- C7 counterexample: resubmitting transaction id 1 — already accepted as a
Deposit — as a new Withdrawal to an account that has since been locked fails
with the account-locked error, not the duplicate-transaction-id error (the
locked check runs first in `ClientState::withdrawal`). -/
theorem C7_counterexample :
    containsTx lockedExampleState.tx_for_transaction_state 1 = true ∧
    applyTransaction lockedExampleState
        ⟨TransactionType.withdrawal, 1, 1, some ⟨1, 0⟩⟩ =
      (lockedExampleState, some Err.accountLocked) ∧
    Err.accountLocked ≠ Err.transactionAlreadyProcessed := by
  decide

/-- C7 (amended): resubmitting a transaction id that is already in the ledger as
a new Deposit or a new Withdrawal always fails and leaves available, held,
locked, and the ledger unchanged; the error is the duplicate-transaction-id
error, except that a Withdrawal resubmitted to a locked account fails with the
account-locked error (the locked check precedes the duplicate check). -/
theorem C7_duplicate_rejection (s : ClientState) (t : Transaction)
    (hdup : containsTx s.tx_for_transaction_state t.tx = true)
    (hk : t.transaction_type = TransactionType.deposit ∨
      t.transaction_type = TransactionType.withdrawal) :
    applyTransaction s t =
      (s, some (if t.transaction_type = TransactionType.withdrawal ∧ s.locked = true
        then Err.accountLocked else Err.transactionAlreadyProcessed)) := by
  rcases hk with ht | ht
  · simp [applyTransaction, ht, ClientState.deposit, hdup]
  · by_cases hl : s.locked = true
    · simp [applyTransaction, ht, ClientState.withdrawal, hl]
    · simp [applyTransaction, ht, ClientState.withdrawal, hl, hdup]

theorem C7_duplicate_rejection_witness :
    containsTx (applyAll (initialState 1)
      [⟨TransactionType.deposit, 1, 1, some ⟨1, 0⟩⟩]).tx_for_transaction_state 1 = true ∧
    applyTransaction (applyAll (initialState 1) [⟨TransactionType.deposit, 1, 1, some ⟨1, 0⟩⟩])
        ⟨TransactionType.deposit, 1, 1, some ⟨1, 0⟩⟩ =
      (applyAll (initialState 1) [⟨TransactionType.deposit, 1, 1, some ⟨1, 0⟩⟩],
        some Err.transactionAlreadyProcessed) :=
  ⟨by decide,
    by
      have h := C7_duplicate_rejection
        (applyAll (initialState 1) [⟨TransactionType.deposit, 1, 1, some ⟨1, 0⟩⟩])
        ⟨TransactionType.deposit, 1, 1, some ⟨1, 0⟩⟩ (by decide) (Or.inl rfl)
      simpa using h⟩

/-- C8: Dispute preconditions, exactly as checked by
`get_tx_state_and_check_state` and `ClientState::dispute`: not-found error on a
missing entry; rejection of Withdrawal, already-Disputed, and Chargebacked
entries; rejection of a Posted (Deposit) entry when available < amount; and on
success the entry is marked Disputed, available decreases by the entry amount,
and held increases by it. -/
theorem C8_dispute_preconditions (s : ClientState) (t : Transaction)
    (ht : t.transaction_type = TransactionType.dispute) :
    (lookupTx s.tx_for_transaction_state t.tx = none →
      applyTransaction s t = (s, some Err.txDoesNotExist)) ∧
    (∀ a, lookupTx s.tx_for_transaction_state t.tx = some (TransactionType.withdrawal, a) →
      applyTransaction s t = (s, some Err.cannotDisputeWithdrawal)) ∧
    (∀ a, lookupTx s.tx_for_transaction_state t.tx = some (TransactionType.dispute, a) →
      applyTransaction s t = (s, some Err.alreadyBeingDisputed)) ∧
    (∀ a, lookupTx s.tx_for_transaction_state t.tx = some (TransactionType.chargeback, a) →
      applyTransaction s t = (s, some Err.alreadyChargebacked)) ∧
    (∀ a, lookupTx s.tx_for_transaction_state t.tx = some (TransactionType.deposit, a) →
      s.available.lt a →
      applyTransaction s t = (s, some Err.notEnoughAvailableFunds)) ∧
    (∀ a, lookupTx s.tx_for_transaction_state t.tx = some (TransactionType.deposit, a) →
      ¬ s.available.lt a →
      applyTransaction s t =
        ({ s with
            available := s.available.sub a,
            held := s.held.add a,
            tx_for_transaction_state :=
              setTxState s.tx_for_transaction_state t.tx TransactionType.dispute }, none) ∧
      lookupTx (applyTransaction s t).1.tx_for_transaction_state t.tx =
        some (TransactionType.dispute, a)) := by
  refine ⟨?_, ?_, ?_, ?_, ?_, ?_⟩
  · intro hlook
    simp [applyTransaction, ht, ClientState.dispute, get_tx_state_and_check_state, hlook]
  · intro a hlook
    simp [applyTransaction, ht, ClientState.dispute, get_tx_state_and_check_state, hlook]
  · intro a hlook
    simp [applyTransaction, ht, ClientState.dispute, get_tx_state_and_check_state, hlook]
  · intro a hlook
    simp [applyTransaction, ht, ClientState.dispute, get_tx_state_and_check_state, hlook]
  · intro a hlook hlt
    simp [applyTransaction, ht, ClientState.dispute, get_tx_state_and_check_state, hlook, hlt]
  · intro a hlook hlt
    have heq : applyTransaction s t =
        ({ s with
            available := s.available.sub a,
            held := s.held.add a,
            tx_for_transaction_state :=
              setTxState s.tx_for_transaction_state t.tx TransactionType.dispute }, none) := by
      simp [applyTransaction, ht, ClientState.dispute, get_tx_state_and_check_state, hlook, hlt]
    refine ⟨heq, ?_⟩
    rw [heq]
    exact lookupTx_setTxState_self s.tx_for_transaction_state t.tx
      TransactionType.deposit TransactionType.dispute a hlook

theorem C8_dispute_preconditions_witness :
    lookupTx (applyAll (initialState 1)
        [⟨TransactionType.deposit, 1, 1, some ⟨1, 0⟩⟩]).tx_for_transaction_state 1 =
      some (TransactionType.deposit, ⟨1, 0⟩) ∧
    applyTransaction (applyAll (initialState 1) [⟨TransactionType.deposit, 1, 1, some ⟨1, 0⟩⟩])
        ⟨TransactionType.dispute, 1, 1, none⟩ =
      ({ applyAll (initialState 1) [⟨TransactionType.deposit, 1, 1, some ⟨1, 0⟩⟩] with
          available := (BigDecimal.mk 1 0).sub ⟨1, 0⟩,
          held := (BigDecimal.mk 0 0).add ⟨1, 0⟩,
          tx_for_transaction_state :=
            setTxState (applyAll (initialState 1)
              [⟨TransactionType.deposit, 1, 1, some ⟨1, 0⟩⟩]).tx_for_transaction_state 1
              TransactionType.dispute }, none) :=
  ⟨by decide,
    by
      have h := (C8_dispute_preconditions
        (applyAll (initialState 1) [⟨TransactionType.deposit, 1, 1, some ⟨1, 0⟩⟩])
        ⟨TransactionType.dispute, 1, 1, none⟩ rfl).2.2.2.2.2 ⟨1, 0⟩ (by decide) (by decide)
      exact h.1⟩

/-- C10 (implicit): the locked flag gates only Withdrawals.  For a locked
account, Dispute, Resolve, and Chargeback produce exactly the outcome they
produce on the same account with the lock cleared (the lock is never consulted),
and each succeeds precisely when its own ledger-state and balance preconditions
hold. -/
theorem C10_lock_gates_only_withdrawals (s : ClientState) (t : Transaction)
    (_hlock : s.locked = true)
    (ht : t.transaction_type = TransactionType.dispute ∨
      t.transaction_type = TransactionType.resolve ∨
      t.transaction_type = TransactionType.chargeback) :
    (applyTransaction s t).2 = (applyTransaction { s with locked := false } t).2 ∧
    (t.transaction_type = TransactionType.dispute →
      ((applyTransaction s t).2 = none ↔
        ∃ a, lookupTx s.tx_for_transaction_state t.tx = some (TransactionType.deposit, a) ∧
          ¬ s.available.lt a)) ∧
    (t.transaction_type = TransactionType.resolve →
      ((applyTransaction s t).2 = none ↔
        ∃ a, lookupTx s.tx_for_transaction_state t.tx = some (TransactionType.dispute, a) ∧
          ¬ s.held.lt a)) ∧
    (t.transaction_type = TransactionType.chargeback →
      ((applyTransaction s t).2 = none ↔
        ∃ a, lookupTx s.tx_for_transaction_state t.tx = some (TransactionType.dispute, a) ∧
          ¬ s.held.lt a)) := by
  have hdisp : t.transaction_type = TransactionType.dispute →
      ((applyTransaction s t).2 = none ↔
        ∃ a, lookupTx s.tx_for_transaction_state t.tx = some (TransactionType.deposit, a) ∧
          ¬ s.available.lt a) := by
    intro htt
    cases hlook : lookupTx s.tx_for_transaction_state t.tx with
    | none =>
      simp [applyTransaction, htt, ClientState.dispute, get_tx_state_and_check_state, hlook]
    | some p =>
      obtain ⟨st, a⟩ := p
      cases st <;>
        [skip;
         simp [applyTransaction, htt, ClientState.dispute, get_tx_state_and_check_state, hlook];
         simp [applyTransaction, htt, ClientState.dispute, get_tx_state_and_check_state, hlook];
         simp [applyTransaction, htt, ClientState.dispute, get_tx_state_and_check_state, hlook];
         simp [applyTransaction, htt, ClientState.dispute, get_tx_state_and_check_state, hlook]]
      by_cases hlt : s.available.lt a <;>
        simp [applyTransaction, htt, ClientState.dispute, get_tx_state_and_check_state,
          hlook, hlt]
  have hresv : t.transaction_type = TransactionType.resolve →
      ((applyTransaction s t).2 = none ↔
        ∃ a, lookupTx s.tx_for_transaction_state t.tx = some (TransactionType.dispute, a) ∧
          ¬ s.held.lt a) := by
    intro htt
    cases hlook : lookupTx s.tx_for_transaction_state t.tx with
    | none =>
      simp [applyTransaction, htt, ClientState.resolve, get_tx_state_and_check_state, hlook]
    | some p =>
      obtain ⟨st, a⟩ := p
      cases st <;>
        [simp [applyTransaction, htt, ClientState.resolve, get_tx_state_and_check_state, hlook];
         simp [applyTransaction, htt, ClientState.resolve, get_tx_state_and_check_state, hlook];
         skip;
         simp [applyTransaction, htt, ClientState.resolve, get_tx_state_and_check_state, hlook];
         simp [applyTransaction, htt, ClientState.resolve, get_tx_state_and_check_state, hlook]]
      by_cases hlt : s.held.lt a <;>
        simp [applyTransaction, htt, ClientState.resolve, get_tx_state_and_check_state,
          hlook, hlt]
  have hcb : t.transaction_type = TransactionType.chargeback →
      ((applyTransaction s t).2 = none ↔
        ∃ a, lookupTx s.tx_for_transaction_state t.tx = some (TransactionType.dispute, a) ∧
          ¬ s.held.lt a) := by
    intro htt
    cases hlook : lookupTx s.tx_for_transaction_state t.tx with
    | none =>
      simp [applyTransaction, htt, ClientState.chargeback, get_tx_state_and_check_state, hlook]
    | some p =>
      obtain ⟨st, a⟩ := p
      cases st <;>
        [simp [applyTransaction, htt, ClientState.chargeback, get_tx_state_and_check_state, hlook];
         simp [applyTransaction, htt, ClientState.chargeback, get_tx_state_and_check_state, hlook];
         skip;
         simp [applyTransaction, htt, ClientState.chargeback, get_tx_state_and_check_state, hlook];
         simp [applyTransaction, htt, ClientState.chargeback, get_tx_state_and_check_state, hlook]]
      by_cases hlt : s.held.lt a <;>
        simp [applyTransaction, htt, ClientState.chargeback, get_tx_state_and_check_state,
          hlook, hlt]
  refine ⟨?_, hdisp, hresv, hcb⟩
  rcases ht with htt | htt | htt
  · cases hlook : lookupTx s.tx_for_transaction_state t.tx with
    | none =>
      simp [applyTransaction, htt, ClientState.dispute, get_tx_state_and_check_state, hlook]
    | some p =>
      obtain ⟨st, a⟩ := p
      cases st <;>
        simp [applyTransaction, htt, ClientState.dispute, get_tx_state_and_check_state, hlook] <;>
        (by_cases hlt : s.available.lt a <;> simp [hlt])
  · cases hlook : lookupTx s.tx_for_transaction_state t.tx with
    | none =>
      simp [applyTransaction, htt, ClientState.resolve, get_tx_state_and_check_state, hlook]
    | some p =>
      obtain ⟨st, a⟩ := p
      cases st <;>
        simp [applyTransaction, htt, ClientState.resolve, get_tx_state_and_check_state, hlook] <;>
        (by_cases hlt : s.held.lt a <;> simp [hlt])
  · cases hlook : lookupTx s.tx_for_transaction_state t.tx with
    | none =>
      simp [applyTransaction, htt, ClientState.chargeback, get_tx_state_and_check_state, hlook]
    | some p =>
      obtain ⟨st, a⟩ := p
      cases st <;>
        simp [applyTransaction, htt, ClientState.chargeback, get_tx_state_and_check_state, hlook] <;>
        (by_cases hlt : s.held.lt a <;> simp [hlt])

theorem C10_lock_gates_only_withdrawals_witness :
    lockedExampleState.locked = true ∧
    ((applyTransaction lockedExampleState ⟨TransactionType.dispute, 1, 2, none⟩).2 = none ↔
      ∃ a, lookupTx lockedExampleState.tx_for_transaction_state 2 =
          some (TransactionType.deposit, a) ∧
        ¬ lockedExampleState.available.lt a) :=
  ⟨by decide,
    (C10_lock_gates_only_withdrawals lockedExampleState
        ⟨TransactionType.dispute, 1, 2, none⟩ (by decide) (Or.inl rfl)).2.1 rfl⟩

/-! ### Chargeback terminality (C3) -/

/-- A successful lookup-and-check returns the entry under the allowed state. -/
theorem get_tx_state_ok (m : List (TxId × TransactionType × BigDecimal))
    (t : Transaction) (allowed st : TransactionType) (a : BigDecimal)
    (h : get_tx_state_and_check_state m t allowed = Except.ok (st, a)) :
    lookupTx m t.tx = some (allowed, a) ∧ st = allowed := by
  unfold get_tx_state_and_check_state at h
  cases hlk : lookupTx m t.tx with
  | none => rw [hlk] at h; simp at h
  | some p =>
    obtain ⟨st0, a0⟩ := p
    rw [hlk] at h
    dsimp only at h
    by_cases heq : st0 = allowed
    · rw [if_pos heq] at h
      injection h with h1
      injection h1 with h2 h3
      constructor
      · rw [heq, h3]
      · rw [← h2]
        exact heq
    · rw [if_neg heq] at h
      cases st0 <;> simp at h

/-- Shape of a successful chargeback: the disputed entry becomes Chargebacked,
held decreases by its amount, and the account locks. -/
theorem chargeback_success (s : ClientState) (t : Transaction)
    (h : (s.chargeback t).2 = none) :
    ∃ a, lookupTx s.tx_for_transaction_state t.tx = some (TransactionType.dispute, a) ∧
      ¬ s.held.lt a ∧
      (s.chargeback t).1 =
        { s with
            tx_for_transaction_state :=
              setTxState s.tx_for_transaction_state t.tx TransactionType.chargeback,
            held := s.held.sub a,
            locked := true } := by
  unfold ClientState.chargeback at h ⊢
  cases hg : get_tx_state_and_check_state s.tx_for_transaction_state t
      TransactionType.dispute with
  | error e => simp [hg] at h
  | ok p =>
    obtain ⟨st, a⟩ := p
    obtain ⟨hlk, hst⟩ := get_tx_state_ok _ _ _ _ _ hg
    by_cases hlt : s.held.lt a
    · simp [hg, hlt] at h
    · exact ⟨a, hlk, hlt, by simp [hg, hlt]⟩

/-- One step preserves a chargebacked ledger entry and the locked flag. -/
theorem chargebacked_locked_stable (s : ClientState) (t : Transaction)
    (k : TxId) (a : BigDecimal)
    (hcb : lookupTx s.tx_for_transaction_state k = some (TransactionType.chargeback, a))
    (hl : s.locked = true) :
    lookupTx (applyTransaction s t).1.tx_for_transaction_state k =
      some (TransactionType.chargeback, a) ∧
    (applyTransaction s t).1.locked = true := by
  cases he : (applyTransaction s t).2 with
  | some e => rw [applyTransaction_error_eq s t e he]; exact ⟨hcb, hl⟩
  | none =>
    cases htt : t.transaction_type <;> simp only [applyTransaction, htt] at he ⊢
    case deposit =>
      unfold ClientState.deposit at he ⊢
      by_cases hc : containsTx s.tx_for_transaction_state t.tx = true
      · simp [hc] at he
      · cases ha : t.amount with
        | none => simp [hc, ha] at he
        | some amt =>
          have hk : t.tx ≠ k := by
            intro hkk
            subst hkk
            unfold containsTx at hc
            simp [hcb] at hc
          simp only [hc, ha, Bool.false_eq_true, if_false]
          rw [lookupTx_insertTx_ne _ _ _ _ hk]
          exact ⟨hcb, hl⟩
    case withdrawal =>
      unfold ClientState.withdrawal at he ⊢
      simp [hl] at he
    case dispute =>
      unfold ClientState.dispute at he ⊢
      cases hg : get_tx_state_and_check_state s.tx_for_transaction_state t
          TransactionType.deposit with
      | error e => simp [hg] at he
      | ok p =>
        obtain ⟨st, amt⟩ := p
        obtain ⟨hlk, hst⟩ := get_tx_state_ok _ _ _ _ _ hg
        have hk : t.tx ≠ k := by
          intro hkk
          rw [hkk, hcb] at hlk
          simp at hlk
        by_cases hlt : s.available.lt amt
        · simp [hg, hlt] at he
        · simp only [hg, if_neg hlt]
          exact ⟨by rw [lookupTx_setTxState_ne _ _ _ _ hk]; exact hcb, hl⟩
    case resolve =>
      unfold ClientState.resolve at he ⊢
      cases hg : get_tx_state_and_check_state s.tx_for_transaction_state t
          TransactionType.dispute with
      | error e => simp [hg] at he
      | ok p =>
        obtain ⟨st, amt⟩ := p
        obtain ⟨hlk, hst⟩ := get_tx_state_ok _ _ _ _ _ hg
        have hk : t.tx ≠ k := by
          intro hkk
          rw [hkk, hcb] at hlk
          simp at hlk
        by_cases hlt : s.held.lt amt
        · simp [hg, hlt] at he
        · simp only [hg, if_neg hlt]
          exact ⟨by rw [lookupTx_setTxState_ne _ _ _ _ hk]; exact hcb, hl⟩
    case chargeback =>
      unfold ClientState.chargeback at he ⊢
      cases hg : get_tx_state_and_check_state s.tx_for_transaction_state t
          TransactionType.dispute with
      | error e => simp [hg] at he
      | ok p =>
        obtain ⟨st, amt⟩ := p
        obtain ⟨hlk, hst⟩ := get_tx_state_ok _ _ _ _ _ hg
        have hk : t.tx ≠ k := by
          intro hkk
          rw [hkk, hcb] at hlk
          simp at hlk
        by_cases hlt : s.held.lt amt
        · simp [hg, hlt] at he
        · simp only [hg, if_neg hlt]
          exact ⟨by rw [lookupTx_setTxState_ne _ _ _ _ hk]; exact hcb, trivial⟩

/-- Any sequence of transactions preserves a chargebacked entry and the lock. -/
theorem chargebacked_locked_stable_all (s : ClientState) (ts : List Transaction)
    (k : TxId) (a : BigDecimal)
    (hcb : lookupTx s.tx_for_transaction_state k = some (TransactionType.chargeback, a))
    (hl : s.locked = true) :
    lookupTx (applyAll s ts).tx_for_transaction_state k =
      some (TransactionType.chargeback, a) ∧
    (applyAll s ts).locked = true := by
  induction ts generalizing s with
  | nil => exact ⟨hcb, hl⟩
  | cons t ts ih =>
    obtain ⟨h1, h2⟩ := chargebacked_locked_stable s t k a hcb hl
    exact ih _ h1 h2

/-- Dispute, Resolve, and Chargeback all fail on a chargebacked entry. -/
theorem drc_on_chargebacked_fails (s : ClientState) (t : Transaction) (a : BigDecimal)
    (hcb : lookupTx s.tx_for_transaction_state t.tx =
      some (TransactionType.chargeback, a))
    (ht : t.transaction_type = TransactionType.dispute ∨
      t.transaction_type = TransactionType.resolve ∨
      t.transaction_type = TransactionType.chargeback) :
    (applyTransaction s t).2 = some Err.alreadyChargebacked := by
  rcases ht with h | h | h <;>
    simp [applyTransaction, h, ClientState.dispute, ClientState.resolve,
      ClientState.chargeback, get_tx_state_and_check_state, hcb]

/-- C3: Chargeback is terminal and locking is permanent: once a Chargeback
succeeds for a transaction id, the entry is Chargebacked and the account locked;
both facts survive every later sequence of operations, and every later Dispute,
Resolve, or Chargeback referencing that same transaction id fails (with the
already-chargebacked error) leaving the state unchanged. -/
theorem C3_chargeback_terminal (s : ClientState) (t : Transaction)
    (ts : List Transaction)
    (ht : t.transaction_type = TransactionType.chargeback)
    (hsucc : (applyTransaction s t).2 = none) :
    (applyTransaction s t).1.locked = true ∧
    ∃ a,
      lookupTx (applyTransaction s t).1.tx_for_transaction_state t.tx =
        some (TransactionType.chargeback, a) ∧
      lookupTx (applyAll (applyTransaction s t).1 ts).tx_for_transaction_state t.tx =
        some (TransactionType.chargeback, a) ∧
      (applyAll (applyTransaction s t).1 ts).locked = true ∧
      ∀ t2 : Transaction, t2.tx = t.tx →
        (t2.transaction_type = TransactionType.dispute ∨
         t2.transaction_type = TransactionType.resolve ∨
         t2.transaction_type = TransactionType.chargeback) →
        (applyTransaction (applyAll (applyTransaction s t).1 ts) t2).2 =
          some Err.alreadyChargebacked ∧
        (applyTransaction (applyAll (applyTransaction s t).1 ts) t2).1 =
          applyAll (applyTransaction s t).1 ts := by
  have hsucc2 : (s.chargeback t).2 = none := by
    simpa [applyTransaction, ht] using hsucc
  obtain ⟨a, hlk, _hlt, hshape⟩ := chargeback_success s t hsucc2
  have heq : (applyTransaction s t).1 = (s.chargeback t).1 := by
    simp [applyTransaction, ht]
  rw [heq, hshape]
  have h1 : lookupTx (setTxState s.tx_for_transaction_state t.tx
      TransactionType.chargeback) t.tx = some (TransactionType.chargeback, a) :=
    lookupTx_setTxState_self _ _ _ _ _ hlk
  obtain ⟨h3, h4⟩ := chargebacked_locked_stable_all
    { s with
        tx_for_transaction_state :=
          setTxState s.tx_for_transaction_state t.tx TransactionType.chargeback,
        held := s.held.sub a,
        locked := true } ts t.tx a h1 rfl
  refine ⟨rfl, a, h1, h3, h4, ?_⟩
  intro t2 htx2 ht2
  have h3b : lookupTx (applyAll
      { s with
          tx_for_transaction_state :=
            setTxState s.tx_for_transaction_state t.tx TransactionType.chargeback,
          held := s.held.sub a,
          locked := true } ts).tx_for_transaction_state t2.tx =
      some (TransactionType.chargeback, a) := by
    rw [htx2]
    exact h3
  have hf := drc_on_chargebacked_fails _ t2 a h3b ht2
  exact ⟨hf, applyTransaction_error_eq _ _ _ hf⟩

/-- A concrete account with transaction 1 under dispute. -/
def disputedExampleState : ClientState :=
  applyAll (initialState 1)
    [⟨TransactionType.deposit, 1, 1, some ⟨1, 0⟩⟩,
     ⟨TransactionType.dispute, 1, 1, none⟩]

theorem C3_chargeback_terminal_witness :
    (applyTransaction disputedExampleState ⟨TransactionType.chargeback, 1, 1, none⟩).2 = none ∧
    (applyTransaction disputedExampleState ⟨TransactionType.chargeback, 1, 1, none⟩).1.locked = true :=
  ⟨by decide,
    (C3_chargeback_terminal disputedExampleState ⟨TransactionType.chargeback, 1, 1, none⟩
      [⟨TransactionType.deposit, 1, 2, some ⟨3, 0⟩⟩] rfl (by decide)).1⟩

/-! ### Success shapes of the remaining operations -/

/-- Shape of a successful withdrawal. -/
theorem withdrawal_success (s : ClientState) (t : Transaction)
    (h : (s.withdrawal t).2 = none) :
    ∃ a, t.amount = some a ∧ s.locked = false ∧
      containsTx s.tx_for_transaction_state t.tx = false ∧
      ¬ s.available.le a ∧
      (s.withdrawal t).1 =
        { s with
            available := s.available.sub a,
            tx_for_transaction_state :=
              insertTx s.tx_for_transaction_state t.tx
                (TransactionType.withdrawal, a) } := by
  unfold ClientState.withdrawal at h ⊢
  by_cases hl : s.locked = true
  · simp [hl] at h
  · by_cases hc : containsTx s.tx_for_transaction_state t.tx = true
    · simp [hl, hc] at h
    · cases ha : t.amount with
      | none => simp [hl, hc, ha] at h
      | some a =>
        by_cases hle : s.available.le a
        · simp [hl, hc, ha, hle] at h
        · exact ⟨a, rfl, by simpa using hl, by simpa using hc, hle,
            by simp [hl, hc, ha, hle]⟩

/-- Shape of a successful dispute. -/
theorem dispute_success (s : ClientState) (t : Transaction)
    (h : (s.dispute t).2 = none) :
    ∃ a, lookupTx s.tx_for_transaction_state t.tx = some (TransactionType.deposit, a) ∧
      ¬ s.available.lt a ∧
      (s.dispute t).1 =
        { s with
            tx_for_transaction_state :=
              setTxState s.tx_for_transaction_state t.tx TransactionType.dispute,
            available := s.available.sub a,
            held := s.held.add a } := by
  unfold ClientState.dispute at h ⊢
  cases hg : get_tx_state_and_check_state s.tx_for_transaction_state t
      TransactionType.deposit with
  | error e => simp [hg] at h
  | ok p =>
    obtain ⟨st, a⟩ := p
    obtain ⟨hlk, hst⟩ := get_tx_state_ok _ _ _ _ _ hg
    by_cases hlt : s.available.lt a
    · simp [hg, hlt] at h
    · exact ⟨a, hlk, hlt, by simp [hg, hlt]⟩

/-- Shape of a successful resolve. -/
theorem resolve_success (s : ClientState) (t : Transaction)
    (h : (s.resolve t).2 = none) :
    ∃ a, lookupTx s.tx_for_transaction_state t.tx = some (TransactionType.dispute, a) ∧
      ¬ s.held.lt a ∧
      (s.resolve t).1 =
        { s with
            tx_for_transaction_state :=
              setTxState s.tx_for_transaction_state t.tx TransactionType.deposit,
            held := s.held.sub a,
            available := s.available.add a } := by
  unfold ClientState.resolve at h ⊢
  cases hg : get_tx_state_and_check_state s.tx_for_transaction_state t
      TransactionType.dispute with
  | error e => simp [hg] at h
  | ok p =>
    obtain ⟨st, a⟩ := p
    obtain ⟨hlk, hst⟩ := get_tx_state_ok _ _ _ _ _ hg
    by_cases hlt : s.held.lt a
    · simp [hg, hlt] at h
    · exact ⟨a, hlk, hlt, by simp [hg, hlt]⟩

/-! ### Resolve followed by re-Dispute (C9) -/

/-- C9 counterexample to the claim as stated: after deposit 5 (tx 1), dispute
tx 1, deposit -1 (tx 2) — the input format accepts negative amounts and the code
never rejects them — the account has a Disputed entry of amount 5 ≤ held = 5,
yet Resolve then re-Dispute on tx 1 does not round-trip: the Resolve succeeds
but the re-Dispute fails the available-funds check, because available is
negative. -/
theorem C9_counterexample :
    lookupTx (applyAll (initialState 1)
        [⟨TransactionType.deposit, 1, 1, some ⟨5, 0⟩⟩,
         ⟨TransactionType.dispute, 1, 1, none⟩,
         ⟨TransactionType.deposit, 1, 2, some ⟨-1, 0⟩⟩]).tx_for_transaction_state 1 =
      some (TransactionType.dispute, ⟨5, 0⟩) ∧
    ¬ (applyAll (initialState 1)
        [⟨TransactionType.deposit, 1, 1, some ⟨5, 0⟩⟩,
         ⟨TransactionType.dispute, 1, 1, none⟩,
         ⟨TransactionType.deposit, 1, 2, some ⟨-1, 0⟩⟩]).held.lt ⟨5, 0⟩ ∧
    (applyTransaction (applyAll (initialState 1)
        [⟨TransactionType.deposit, 1, 1, some ⟨5, 0⟩⟩,
         ⟨TransactionType.dispute, 1, 1, none⟩,
         ⟨TransactionType.deposit, 1, 2, some ⟨-1, 0⟩⟩])
        ⟨TransactionType.resolve, 1, 1, none⟩).2 = none ∧
    (applyTransaction
        (applyTransaction (applyAll (initialState 1)
          [⟨TransactionType.deposit, 1, 1, some ⟨5, 0⟩⟩,
           ⟨TransactionType.dispute, 1, 1, none⟩,
           ⟨TransactionType.deposit, 1, 2, some ⟨-1, 0⟩⟩])
          ⟨TransactionType.resolve, 1, 1, none⟩).1
        ⟨TransactionType.dispute, 1, 1, none⟩).2 = some Err.notEnoughAvailableFunds := by
  decide

/-- C9 (amended): for every account with a Disputed ledger entry whose amount is
at most held and whose available balance is nonnegative, applying Resolve and
then Dispute on the same transaction id both succeed, and the resulting
available, held (as decimal values), locked flag, and entire ledger — hence the
entry's lifecycle state — are identical to the state immediately after the
first Dispute. -/
theorem C9_resolve_redispute (s : ClientState) (txid : TxId) (a : BigDecimal)
    (t1 t2 : Transaction)
    (hent : lookupTx s.tx_for_transaction_state txid = some (TransactionType.dispute, a))
    (hheld : ¬ s.held.lt a)
    (havail : 0 ≤ s.available.toRat)
    (ht1 : t1.transaction_type = TransactionType.resolve) (htx1 : t1.tx = txid)
    (ht2 : t2.transaction_type = TransactionType.dispute) (htx2 : t2.tx = txid) :
    (applyTransaction s t1).2 = none ∧
    (applyTransaction (applyTransaction s t1).1 t2).2 = none ∧
    (applyTransaction (applyTransaction s t1).1 t2).1.available.veq s.available ∧
    (applyTransaction (applyTransaction s t1).1 t2).1.held.veq s.held ∧
    (applyTransaction (applyTransaction s t1).1 t2).1.locked = s.locked ∧
    (applyTransaction (applyTransaction s t1).1 t2).1.tx_for_transaction_state =
      s.tx_for_transaction_state ∧
    (applyTransaction (applyTransaction s t1).1 t2).1.client = s.client := by
  have h1 : applyTransaction s t1 =
      ({ s with
          tx_for_transaction_state :=
            setTxState s.tx_for_transaction_state txid TransactionType.deposit,
          held := s.held.sub a,
          available := s.available.add a }, none) := by
    simp [applyTransaction, ht1, ClientState.resolve, get_tx_state_and_check_state,
      htx1, hent, hheld]
  have hlk1 : lookupTx (setTxState s.tx_for_transaction_state txid
      TransactionType.deposit) txid = some (TransactionType.deposit, a) :=
    lookupTx_setTxState_self _ _ _ _ _ hent
  have hnlt : ¬ (s.available.add a).lt a := by
    rw [BigDecimal.lt_iff, BigDecimal.toRat_add]
    intro hcon
    linarith
  have h2 : applyTransaction
      ({ s with
          tx_for_transaction_state :=
            setTxState s.tx_for_transaction_state txid TransactionType.deposit,
          held := s.held.sub a,
          available := s.available.add a } : ClientState) t2 =
      ({ s with
          tx_for_transaction_state :=
            setTxState (setTxState s.tx_for_transaction_state txid
              TransactionType.deposit) txid TransactionType.dispute,
          available := (s.available.add a).sub a,
          held := (s.held.sub a).add a }, none) := by
    simp [applyTransaction, ht2, ClientState.dispute, get_tx_state_and_check_state,
      htx2, hlk1, hnlt]
  rw [h1]
  rw [h2]
  refine ⟨rfl, rfl, ?_, ?_, rfl, ?_, rfl⟩
  · rw [BigDecimal.veq_iff, BigDecimal.toRat_sub, BigDecimal.toRat_add]
    ring
  · rw [BigDecimal.veq_iff, BigDecimal.toRat_add, BigDecimal.toRat_sub]
    ring
  · rw [setTxState_setTxState]
    exact setTxState_eq_self _ _ _ _ hent

theorem C9_resolve_redispute_witness :
    lookupTx disputedExampleState.tx_for_transaction_state 1 =
      some (TransactionType.dispute, ⟨1, 0⟩) ∧
    ((applyTransaction disputedExampleState ⟨TransactionType.resolve, 1, 1, none⟩).2 = none ∧
     (applyTransaction
        (applyTransaction disputedExampleState ⟨TransactionType.resolve, 1, 1, none⟩).1
        ⟨TransactionType.dispute, 1, 1, none⟩).2 = none) := by
  refine ⟨by decide, ?_⟩
  have h := C9_resolve_redispute disputedExampleState 1 ⟨1, 0⟩
    ⟨TransactionType.resolve, 1, 1, none⟩ ⟨TransactionType.dispute, 1, 1, none⟩
    (by decide) (by decide)
    (by
      have hav : disputedExampleState.available = ⟨0, 0⟩ := by decide
      rw [hav]
      simp [BigDecimal.toRat])
    rfl rfl rfl rfl
  exact ⟨h.1, h.2.1⟩

/-! ### Balance nonnegativity (C2) -/

theorem BigDecimal.toRat_nonneg_iff (x : BigDecimal) : 0 ≤ x.toRat ↔ 0 ≤ x.int_val := by
  rw [← not_lt, ← not_lt, BigDecimal.toRat_neg_iff]

/-- The transaction carries no negative amount (the deserializer accepts any
decimal, so this is a genuine restriction on inputs). -/
def amountNonneg (t : Transaction) : Bool :=
  match t.amount with
  | none => true
  | some a => decide (0 ≤ a.int_val)

theorem amountNonneg_sound (t : Transaction) (h : amountNonneg t = true) :
    ∀ a, t.amount = some a → 0 ≤ a.toRat := by
  intro a ha
  unfold amountNonneg at h
  rw [ha] at h
  rw [BigDecimal.toRat_nonneg_iff]
  simpa using h

/-- Invariant: held is nonnegative and every retained ledger amount is
nonnegative. -/
def HeldLedgerInv (s : ClientState) : Prop :=
  0 ≤ s.held.toRat ∧ ∀ e ∈ s.tx_for_transaction_state, 0 ≤ e.2.2.toRat

/-- One transaction with a nonnegative amount preserves the invariant. -/
theorem heldLedgerInv_step (s : ClientState) (t : Transaction)
    (hinv : HeldLedgerInv s)
    (hamt : ∀ a, t.amount = some a → 0 ≤ a.toRat) :
    HeldLedgerInv (applyTransaction s t).1 := by
  obtain ⟨hheld, hledger⟩ := hinv
  cases he : (applyTransaction s t).2 with
  | some e =>
    rw [applyTransaction_error_eq s t e he]
    exact ⟨hheld, hledger⟩
  | none =>
    cases htt : t.transaction_type <;> simp only [applyTransaction, htt] at he ⊢
    case deposit =>
      unfold ClientState.deposit at he ⊢
      by_cases hc : containsTx s.tx_for_transaction_state t.tx = true
      · simp [hc] at he
      · cases ha : t.amount with
        | none => simp [hc, ha] at he
        | some amt =>
          simp only [hc, ha, Bool.false_eq_true, if_false]
          refine ⟨hheld, ?_⟩
          intro e he2
          rcases mem_insertTx _ _ _ _ he2 with h | h
          · rw [h]
            exact hamt amt ha
          · exact hledger e h
    case withdrawal =>
      have hw := withdrawal_success s t he
      obtain ⟨a, ha, _, _, _, hshape⟩ := hw
      rw [hshape]
      refine ⟨hheld, ?_⟩
      intro e he2
      rcases mem_insertTx _ _ _ _ he2 with h | h
      · rw [h]
        exact hamt a ha
      · exact hledger e h
    case dispute =>
      have hd := dispute_success s t he
      obtain ⟨a, hlk, _, hshape⟩ := hd
      have hka : 0 ≤ a.toRat := hledger (t.tx, TransactionType.deposit, a)
        (lookupTx_mem _ _ _ hlk)
      rw [hshape]
      constructor
      · rw [BigDecimal.toRat_add]
        linarith
      · intro e he2
        obtain ⟨e0, he0, ha0⟩ := mem_setTxState _ _ _ _ he2
        rw [← ha0]
        exact hledger e0 he0
    case resolve =>
      have hr := resolve_success s t he
      obtain ⟨a, hlk, hlt, hshape⟩ := hr
      rw [BigDecimal.lt_iff] at hlt
      push_neg at hlt
      rw [hshape]
      constructor
      · rw [BigDecimal.toRat_sub]
        linarith
      · intro e he2
        obtain ⟨e0, he0, ha0⟩ := mem_setTxState _ _ _ _ he2
        rw [← ha0]
        exact hledger e0 he0
    case chargeback =>
      have hr := chargeback_success s t he
      obtain ⟨a, hlk, hlt, hshape⟩ := hr
      rw [BigDecimal.lt_iff] at hlt
      push_neg at hlt
      rw [hshape]
      constructor
      · rw [BigDecimal.toRat_sub]
        linarith
      · intro e he2
        obtain ⟨e0, he0, ha0⟩ := mem_setTxState _ _ _ _ he2
        rw [← ha0]
        exact hledger e0 he0

/-- The invariant propagates through a transaction list. -/
theorem heldLedgerInv_applyAll (s : ClientState) (ts : List Transaction)
    (hinv : HeldLedgerInv s)
    (hamts : ∀ t ∈ ts, amountNonneg t = true) :
    HeldLedgerInv (applyAll s ts) := by
  induction ts generalizing s with
  | nil => exact hinv
  | cons t ts ih =>
    exact ih _
      (heldLedgerInv_step s t hinv (amountNonneg_sound t (hamts t (by simp))))
      (fun t2 ht2 => hamts t2 (by simp [ht2]))

theorem heldLedgerInv_initial (c : ClientId) : HeldLedgerInv (initialState c) := by
  constructor
  · norm_num [initialState, BigDecimal.toRat]
  · intro e he
    simp [initialState] at he

/-- C2 counterexample to the claim as stated (amounts being arbitrary decimals
accepted by the input format): deposit -1 (tx 1) — accepted, the code never
checks the sign — then Dispute tx 1 succeeds (the available < amount check reads
-1 < -1, false) and leaves held strictly negative. -/
theorem C2_counterexample :
    (applyTransaction
        (applyAll (initialState 1) [⟨TransactionType.deposit, 1, 1, some ⟨-1, 0⟩⟩])
        ⟨TransactionType.dispute, 1, 1, none⟩).2 = none ∧
    (applyTransaction
        (applyAll (initialState 1) [⟨TransactionType.deposit, 1, 1, some ⟨-1, 0⟩⟩])
        ⟨TransactionType.dispute, 1, 1, none⟩).1.held.toRat < 0 := by
  constructor
  · decide
  · have h : (applyTransaction
        (applyAll (initialState 1) [⟨TransactionType.deposit, 1, 1, some ⟨-1, 0⟩⟩])
        ⟨TransactionType.dispute, 1, 1, none⟩).1.held = ⟨-1, 0⟩ := by decide
    rw [h]
    norm_num [BigDecimal.toRat]

/-- C2 (amended): for every sequence of transactions applied to a single
account whose amounts are all nonnegative decimals, available ≥ 0 holds
immediately after every successfully-applied Withdrawal, and held ≥ 0 holds
immediately after every successfully-applied Dispute, Resolve, or Chargeback. -/
theorem C2_balances_nonneg (c : ClientId) (pre : List Transaction) (t : Transaction)
    (hamts : ∀ t2 ∈ pre ++ [t], amountNonneg t2 = true)
    (hsucc : (applyTransaction (applyAll (initialState c) pre) t).2 = none) :
    (t.transaction_type = TransactionType.withdrawal →
      0 ≤ (applyTransaction (applyAll (initialState c) pre) t).1.available.toRat) ∧
    ((t.transaction_type = TransactionType.dispute ∨
      t.transaction_type = TransactionType.resolve ∨
      t.transaction_type = TransactionType.chargeback) →
      0 ≤ (applyTransaction (applyAll (initialState c) pre) t).1.held.toRat) := by
  have hinv : HeldLedgerInv (applyAll (initialState c) pre) :=
    heldLedgerInv_applyAll (initialState c) pre (heldLedgerInv_initial c)
      (fun t2 ht2 => hamts t2 (by simp [ht2]))
  obtain ⟨hheld, hledger⟩ := hinv
  constructor
  · intro htt
    have hw : ((applyAll (initialState c) pre).withdrawal t).2 = none := by
      simpa [applyTransaction, htt] using hsucc
    obtain ⟨a, ha, _, _, hle, hshape⟩ := withdrawal_success _ t hw
    have heq : (applyTransaction (applyAll (initialState c) pre) t).1 =
        ((applyAll (initialState c) pre).withdrawal t).1 := by
      simp [applyTransaction, htt]
    rw [heq, hshape]
    dsimp only
    rw [BigDecimal.le_iff] at hle
    push_neg at hle
    rw [BigDecimal.toRat_sub]
    linarith
  · intro htd
    rcases htd with htt | htt | htt
    · have hd : ((applyAll (initialState c) pre).dispute t).2 = none := by
        simpa [applyTransaction, htt] using hsucc
      obtain ⟨a, hlk, _, hshape⟩ := dispute_success _ t hd
      have hka : 0 ≤ a.toRat := hledger (t.tx, TransactionType.deposit, a)
        (lookupTx_mem _ _ _ hlk)
      have heq : (applyTransaction (applyAll (initialState c) pre) t).1 =
          ((applyAll (initialState c) pre).dispute t).1 := by
        simp [applyTransaction, htt]
      rw [heq, hshape]
      dsimp only
      rw [BigDecimal.toRat_add]
      linarith
    · have hr : ((applyAll (initialState c) pre).resolve t).2 = none := by
        simpa [applyTransaction, htt] using hsucc
      obtain ⟨a, hlk, hlt, hshape⟩ := resolve_success _ t hr
      rw [BigDecimal.lt_iff] at hlt
      push_neg at hlt
      have heq : (applyTransaction (applyAll (initialState c) pre) t).1 =
          ((applyAll (initialState c) pre).resolve t).1 := by
        simp [applyTransaction, htt]
      rw [heq, hshape]
      dsimp only
      rw [BigDecimal.toRat_sub]
      linarith
    · have hr : ((applyAll (initialState c) pre).chargeback t).2 = none := by
        simpa [applyTransaction, htt] using hsucc
      obtain ⟨a, hlk, hlt, hshape⟩ := chargeback_success _ t hr
      rw [BigDecimal.lt_iff] at hlt
      push_neg at hlt
      have heq : (applyTransaction (applyAll (initialState c) pre) t).1 =
          ((applyAll (initialState c) pre).chargeback t).1 := by
        simp [applyTransaction, htt]
      rw [heq, hshape]
      dsimp only
      rw [BigDecimal.toRat_sub]
      linarith

theorem C2_balances_nonneg_witness :
    (∀ t2 ∈ [⟨TransactionType.deposit, 1, 1, some ⟨5, 0⟩⟩,
      (⟨TransactionType.withdrawal, 1, 2, some ⟨1, 0⟩⟩ : Transaction)], amountNonneg t2 = true) ∧
    0 ≤ (applyTransaction
        (applyAll (initialState 1) [⟨TransactionType.deposit, 1, 1, some ⟨5, 0⟩⟩])
        ⟨TransactionType.withdrawal, 1, 2, some ⟨1, 0⟩⟩).1.available.toRat :=
  ⟨by decide,
    (C2_balances_nonneg 1 [⟨TransactionType.deposit, 1, 1, some ⟨5, 0⟩⟩]
      ⟨TransactionType.withdrawal, 1, 2, some ⟨1, 0⟩⟩ (by decide) (by decide)).1 rfl⟩

/-! ### Output formatting (C5) -/

/-- Number of characters after the last decimal point of a rendered value
(0 when no point is present). -/
def countTrailingDecimals (cs : List Char) : Nat :=
  if '.' ∈ cs then (cs.reverse.takeWhile (fun c => c ≠ '.')).length else 0

theorem natCharsAux_no_dot (fuel : Nat) :
    ∀ (n : Nat) (acc : List Char), (∀ c ∈ acc, c ≠ '.') →
      ∀ c ∈ natCharsAux fuel n acc, c ≠ '.' := by
  induction fuel with
  | zero =>
    intro n acc hacc c hc
    simpa [natCharsAux] using hacc c (by simpa [natCharsAux] using hc)
  | succ fuel ih =>
    intro n acc hacc c hc
    unfold natCharsAux at hc
    by_cases hn : n = 0
    · rw [if_pos hn] at hc
      exact hacc c hc
    · rw [if_neg hn] at hc
      refine ih _ _ ?_ c hc
      intro c2 hc2
      rcases List.mem_cons.mp hc2 with h | h
      · subst h
        have hd : n % 10 < 10 := Nat.mod_lt _ (by norm_num)
        set d := n % 10 with hdd
        clear_value d
        interval_cases d <;> decide
      · exact hacc c2 h

theorem natToChars_no_dot (n : Nat) : ∀ c ∈ natToChars n, c ≠ '.' := by
  unfold natToChars
  by_cases hn : n = 0
  · rw [if_pos hn]
    intro c hc
    simp at hc
    subst hc
    decide
  · rw [if_neg hn]
    exact natCharsAux_no_dot _ _ _ (by simp)

theorem takeWhile_no_dot_append (l1 l2 : List Char) (h : ∀ c ∈ l1, c ≠ '.') :
    (l1 ++ '.' :: l2).takeWhile (fun c => c ≠ '.') = l1 := by
  induction l1 with
  | nil => simp [List.takeWhile]
  | cons c l ih =>
    have hc : c ≠ '.' := h c (by simp)
    rw [List.cons_append, List.takeWhile_cons, if_pos (by simp [hc]),
      ih (fun c2 hc2 => h c2 (by simp [hc2]))]

theorem countTrailingDecimals_split (A B : List Char) (hB : ∀ c ∈ B, c ≠ '.') :
    countTrailingDecimals (A ++ '.' :: B) = B.length := by
  unfold countTrailingDecimals
  have hmem : '.' ∈ A ++ '.' :: B := by simp
  rw [if_pos hmem]
  have hrev : (A ++ '.' :: B).reverse = B.reverse ++ '.' :: A.reverse := by
    simp
  rw [hrev, takeWhile_no_dot_append _ _ (fun c hc => hB c (List.mem_reverse.mp hc))]
  exact List.length_reverse _

theorem with_scale_scale (x : BigDecimal) (c : Int) : (x.with_scale c).scale = c := by
  unfold BigDecimal.with_scale
  split_ifs <;> first | rfl | omega

theorem BigDecimal.add_scale (a b : BigDecimal) :
    (a.add b).scale = max a.scale b.scale := by
  unfold BigDecimal.add
  split_ifs <;> simp <;> omega

theorem BigDecimal.sub_scale (a b : BigDecimal) :
    (a.sub b).scale = max a.scale b.scale := by
  unfold BigDecimal.sub
  split_ifs <;> simp <;> omega

theorem round4_scale_le (x : BigDecimal) : (x.round 4).scale ≤ 4 := by
  unfold BigDecimal.round
  dsimp only
  by_cases h1 : (0 : Int) ≤ 4 ∧ x.scale - 4 ≤ 0
  · rw [if_pos h1]
    omega
  · rw [if_neg h1]
    by_cases h2 : x.int_val.natAbs / 10 ^ (x.scale - 4 - 1).toNat % 10 ≤ 4
    · rw [if_pos h2]
      exact le_of_eq (with_scale_scale x 4)
    · rw [if_neg h2]
      by_cases h3 : x.int_val < 0
      · rw [if_pos h3, BigDecimal.sub_scale, with_scale_scale]
        simp
      · rw [if_neg h3, BigDecimal.add_scale, with_scale_scale]
        simp

theorem bigDecimalChars_nonpos (x : BigDecimal) (h : x.scale ≤ 0) :
    bigDecimalChars x = (if x.int_val < 0 then ['-'] else []) ++
      natToChars x.int_val.natAbs ++ List.replicate (-x.scale).toNat '0' := by
  unfold bigDecimalChars
  rw [if_pos h]

theorem bigDecimalChars_mid (x : BigDecimal) (h : ¬ x.scale ≤ 0)
    (hloc : 0 < (((natToChars x.int_val.natAbs).length : Int) - x.scale)) :
    bigDecimalChars x = ((if x.int_val < 0 then ['-'] else []) ++
        (natToChars x.int_val.natAbs).take
          ((((natToChars x.int_val.natAbs).length : Int) - x.scale)).toNat) ++
      '.' :: (natToChars x.int_val.natAbs).drop
          ((((natToChars x.int_val.natAbs).length : Int) - x.scale)).toNat := by
  unfold bigDecimalChars
  rw [if_neg h, if_pos hloc]

theorem bigDecimalChars_small (x : BigDecimal) (h : ¬ x.scale ≤ 0)
    (hloc : ¬ 0 < (((natToChars x.int_val.natAbs).length : Int) - x.scale)) :
    bigDecimalChars x = ((if x.int_val < 0 then ['-'] else []) ++ ['0']) ++
      '.' :: (List.replicate
          (-((((natToChars x.int_val.natAbs).length : Int) - x.scale))).toNat '0' ++
        natToChars x.int_val.natAbs) := by
  unfold bigDecimalChars
  rw [if_neg h, if_neg hloc]
  simp

theorem countTrailingDecimals_le (x : BigDecimal) (h : x.scale ≤ 4) :
    countTrailingDecimals (bigDecimalChars x) ≤ 4 := by
  by_cases hexp : x.scale ≤ 0
  · rw [bigDecimalChars_nonpos x hexp]
    have hnod : '.' ∉ (if x.int_val < 0 then ['-'] else ([] : List Char)) ++
        natToChars x.int_val.natAbs ++ List.replicate (-x.scale).toNat '0' := by
      intro hmem
      rcases List.mem_append.mp hmem with h1 | h1
      · rcases List.mem_append.mp h1 with h2 | h2
        · revert h2
          split <;> intro h2 <;> simp at h2
        · exact natToChars_no_dot _ _ h2 rfl
      · have := List.eq_of_mem_replicate h1
        exact absurd this (by decide)
    unfold countTrailingDecimals
    rw [if_neg hnod]
    norm_num
  · by_cases hloc : 0 < (((natToChars x.int_val.natAbs).length : Int) - x.scale)
    · rw [bigDecimalChars_mid x hexp hloc]
      rw [countTrailingDecimals_split _ _
        (fun c hc => natToChars_no_dot _ c (List.drop_subset _ _ hc))]
      rw [List.length_drop]
      omega
    · rw [bigDecimalChars_small x hexp hloc]
      rw [countTrailingDecimals_split _ _ ?hB]
      case hB =>
        intro c hc
        rcases List.mem_append.mp hc with h2 | h2
        · have := List.eq_of_mem_replicate h2
          subst this
          decide
        · exact natToChars_no_dot _ c h2
      rw [List.length_append, List.length_replicate]
      omega

/-- C5 counterexample: the spec's end-to-end scenario is wrong about the output
text.  A single deposit of 1.0 to client 1 renders as `1,1.0,0,1.0,false`:
`BigDecimal::round(4)` leaves a value whose stored scale is already at most 4
unchanged, and `Display` pads no zeros, so held (scale 0) prints as `0` and the
other columns keep the input's one decimal digit. -/
theorem C5_counterexample :
    formatAccountRow (applyAll (initialState 1)
        [⟨TransactionType.deposit, 1, 1, some ⟨10, 1⟩⟩]) ≠
      "1,1.0000,0.0000,1.0000,false" := by
  decide

/-- C5 (amended): every rendered numeric column is `round(4)` of the stored
value and therefore shows at most 4 decimal digits (but is not zero-padded to
exactly 4); the total column renders available + held and locked renders as the
literal `true`/`false` (both by the row builder translated from src/lib.rs); and
the single-deposit-of-1.0 scenario emits the row `1,1.0,0,1.0,false`. -/
theorem C5_output_formatting :
    (∀ x : BigDecimal, countTrailingDecimals (bigDecimalChars (x.round 4)) ≤ 4) ∧
    formatAccountRow (applyAll (initialState 1)
        [⟨TransactionType.deposit, 1, 1, some ⟨10, 1⟩⟩]) = "1,1.0,0,1.0,false" :=
  ⟨fun x => countTrailingDecimals_le _ (round4_scale_le x), by decide⟩
